import Mathlib

/-!
Verification development for the keriox KERI event-processor core.

The event processor (src/processor/mod.rs) and the event builder
(src/event_message/event_msg_builder.rs) are translated directly from the
source.  Collaborating code that is not part of the repository sources here
(the per-event application semantics, the database, the cryptographic
primitives, canonical serialization) is modelled from the specification, as
marked in the doc comments.  The digest function, raw signature verifier and
canonical serializers are kept abstract as an environment parameter so that
every theorem quantifies over the cryptographic collaborators.
-/

namespace Keri

/-- Raw byte strings are modelled as lists of naturals. -/
abbrev Bytes := List Nat

/-- Modelled from the spec: digest derivation codes.  At least Blake3-256
must be supported; a second code keeps the derivation tag informative. -/
inductive SelfAddressing
  | blake3_256
  | sha3_256
deriving DecidableEq

/-- Modelled from the spec: a self-addressing value is a derivation code
together with the digest bytes. -/
structure SelfAddressingPref where
  derivation : SelfAddressing
  digest : Bytes
deriving DecidableEq

/-- Modelled from the spec: a basic (public-key) identifier value. -/
structure BasicPref where
  key : Bytes
deriving DecidableEq

/-- Modelled from the spec: identifier variants, plus the unset default. -/
inductive IdentifierPref
  | basic (bp : BasicPref)
  | selfAddressing (sap : SelfAddressingPref)
  | default
deriving DecidableEq

/-- Modelled from the spec: the error taxonomy of the processor. -/
inductive Error
  | eventOutOfOrder
  | notEnoughSigs
  | sigVerification
  | eventDuplicate
  | semanticError (msg : String)
deriving DecidableEq

/-- Modelled from the spec: simple or weighted signature thresholds. -/
inductive SignatureThreshold
  | simple (n : Nat)
  | weighted (ws : List Rat)
deriving DecidableEq

/-- Modelled from the spec: current keys, threshold and next-key digest. -/
structure KeyConfig where
  publicKeys : List BasicPref
  threshold : SignatureThreshold
  next : Option SelfAddressingPref
deriving DecidableEq

/-- Modelled from the spec: a seal locating a specific event. -/
structure EventSeal where
  pref : IdentifierPref
  sn : Nat
  eventDigest : SelfAddressingPref
deriving DecidableEq

/-- Modelled from the spec: seal variants. -/
inductive Seal
  | event (es : EventSeal)
  | digest (d : SelfAddressingPref)
  | location (pref : IdentifierPref) (sn : Nat) (ilk : String) (priorDigest : SelfAddressingPref)
  | root (rd : SelfAddressingPref)
deriving DecidableEq

/-- Modelled from the spec: inception witness configuration. -/
structure InceptionWitnessConfig where
  tally : Nat
  initialWitnesses : List BasicPref
deriving DecidableEq

/-- Modelled from the spec: rotation witness configuration. -/
structure WitnessConfig where
  tally : Nat
  graft : List BasicPref
  prune : List BasicPref
deriving DecidableEq

/-- Modelled from the spec: inception payload. -/
structure InceptionEvent where
  keyConfig : KeyConfig
  witnessConfig : InceptionWitnessConfig
  inceptionConfiguration : List Nat
  data : List Seal
deriving DecidableEq

/-- Modelled from the spec: rotation payload. -/
structure RotationEvent where
  previousEventHash : SelfAddressingPref
  keyConfig : KeyConfig
  witnessConfig : WitnessConfig
  data : List Seal
deriving DecidableEq

/-- Modelled from the spec: interaction payload. -/
structure InteractionEvent where
  previousEventHash : SelfAddressingPref
  data : List Seal
deriving DecidableEq

/-- Modelled from the spec: delegated inception payload. -/
structure DelegatedInceptionEvent where
  inceptionData : InceptionEvent
  delegator : IdentifierPref
deriving DecidableEq

/-- Modelled from the spec: delegated rotation payload. -/
structure DelegatedRotationEvent where
  rotationData : RotationEvent
deriving DecidableEq

/-- Accessor mirroring the source's direct field access on `Drt`. -/
def DelegatedRotationEvent.keyConfig (e : DelegatedRotationEvent) : KeyConfig :=
  e.rotationData.keyConfig

/-- Accessor mirroring the source's direct field access on `Drt`. -/
def DelegatedRotationEvent.data (e : DelegatedRotationEvent) : List Seal :=
  e.rotationData.data

/-- Modelled from the spec: the tagged event payload variants. -/
inductive EventData
  | icp (e : InceptionEvent)
  | rot (e : RotationEvent)
  | ixn (e : InteractionEvent)
  | dip (e : DelegatedInceptionEvent)
  | drt (e : DelegatedRotationEvent)
  | rct (d : SelfAddressingPref)
deriving DecidableEq

/-- Modelled from the spec: an event is an identifier, a sequence number and
a payload. -/
structure Event where
  pref : IdentifierPref
  sn : Nat
  eventData : EventData
deriving DecidableEq

/-- Modelled from the spec: supported serialization formats. -/
inductive SerializationFormats
  | json
  | messagePack
  | cbor
deriving DecidableEq

/-- Modelled from the spec: the versioned event envelope.  The version size
field is part of canonical serialization, which is abstracted in `Env`. -/
structure EventMessage where
  event : Event
  fmt : SerializationFormats
deriving DecidableEq

/-- Modelled from the spec: an indexed signature carries the position of the
key that produced it. -/
structure IndexedSig where
  index : Nat
  signature : Bytes
deriving DecidableEq

/-- Modelled from the spec: a source seal couplet `(sn, digest)`. -/
structure SourceSeal where
  sn : Nat
  digest : SelfAddressingPref
deriving DecidableEq

/-- Modelled from the spec: attachments following the event body. -/
inductive Attachment
  | sealSourceCouplets (seals : List SourceSeal)
  | attachedSignatures (sigs : List IndexedSig)
deriving DecidableEq

/-- Modelled from the spec: a signed event message. -/
structure SignedEventMessage where
  eventMessage : EventMessage
  signatures : List IndexedSig
  attachments : List Attachment
deriving DecidableEq

/-- Modelled from the spec: a witness (nontransferable) receipt. -/
structure SignedNontransferableReceipt where
  body : EventMessage
  couplets : List (BasicPref × Bytes)
deriving DecidableEq

/-- Modelled from the spec: a validator (transferable) receipt. -/
structure SignedTransferableReceipt where
  body : EventMessage
  validatorSeal : EventSeal
  signatures : List IndexedSig
deriving DecidableEq

/-- Modelled from the spec: the identifier state. -/
structure IdentifierState where
  pref : IdentifierPref
  sn : Nat
  last : Bytes
  current : KeyConfig
  delegator : Option IdentifierPref
  witnesses : List BasicPref
  tally : Nat
deriving DecidableEq

/-- Modelled from the spec: the state an identifier is born from. -/
def IdentifierState.default : IdentifierState :=
  { pref := IdentifierPref.default
    sn := 0
    last := []
    current := { publicKeys := [], threshold := .simple 1, next := none }
    delegator := none
    witnesses := []
    tally := 0 }

/-- The cryptographic and serialization collaborators, kept abstract:
`digest` is the digest function per derivation code, `verifyRaw` is raw
signature verification (public key, data, signature), `ser` is canonical
serialization of an event message and `serSigned` of a signed message. -/
structure Env where
  digest : SelfAddressing → Bytes → Bytes
  verifyRaw : Bytes → Bytes → Bytes → Except Error Bool
  ser : EventMessage → Bytes
  serSigned : SignedEventMessage → Bytes

/-- Modelled from the spec: `verify_binding` checks that the digest of the
data under the derivation code equals the stored digest bytes. -/
def verifyBinding (env : Env) (p : SelfAddressingPref) (data : Bytes) : Bool :=
  env.digest p.derivation data == p.digest

/-- Modelled from the spec: verify each indexed signature against the key at
its index, collecting the per-signature booleans; a missing index is a
semantic error and a raw verifier error propagates. -/
def verifySigs (env : Env) (keys : List BasicPref) (data : Bytes) :
    List IndexedSig → Except Error (List Bool)
  | [] => .ok []
  | s :: rest =>
    match keys.get? s.index with
    | none => .error (.semanticError "Invalid signature index")
    | some pk =>
      match env.verifyRaw pk.key data s.signature with
      | .error e => .error e
      | .ok b =>
        match verifySigs env keys data rest with
        | .error e => .error e
        | .ok bs => .ok (b :: bs)

/-- Modelled from the spec: threshold signature verification.  Fails with
`sigVerification` if any produced signature is invalid at its index and with
`notEnoughSigs` if the threshold is not met. -/
def KeyConfig.verify (env : Env) (kc : KeyConfig) (data : Bytes)
    (sigs : List IndexedSig) : Except Error Bool :=
  match verifySigs env kc.publicKeys data sigs with
  | .error e => .error e
  | .ok bs =>
    if bs.any (fun b => b = false) then .error .sigVerification
    else
      match kc.threshold with
      | .simple n => if n ≤ sigs.length then .ok true else .error .notEnoughSigs
      | .weighted ws =>
        if (1 : Rat) ≤ (sigs.map (fun s => ((ws.get? s.index).getD 0))).sum
        then .ok true else .error .notEnoughSigs

/-- Modelled from the spec: the transferable textual form of a public key. -/
def basicPrefText (k : BasicPref) : Bytes := 1 :: k.key

/-- Modelled from the spec: canonical encoding of a signature threshold. -/
def thresholdEncoding : SignatureThreshold → Bytes
  | .simple n => [0, n]
  | .weighted ws => 1 :: ws.map (fun q => q.num.toNat * 100 + q.den)

/-- Byte-wise XOR of two digests. -/
def xorBytes (a b : Bytes) : Bytes := List.zipWith (fun x y => Nat.xor x y) a b

/-- Modelled from the spec: the next-key commitment starts from the digest of
the threshold encoding and XORs in the digest of each next key's
transferable textual form. -/
def nxtCommitment (env : Env) (thr : SignatureThreshold) (keys : List BasicPref)
    (d : SelfAddressing) : SelfAddressingPref :=
  { derivation := d
    digest := keys.foldl (fun acc k => xorBytes acc (env.digest d (basicPrefText k)))
      (env.digest d (thresholdEncoding thr)) }

/-- Modelled from the spec: `KeyConfig::new`. -/
def KeyConfig.new (keys : List BasicPref) (nxt : Option SelfAddressingPref)
    (thr : Option SignatureThreshold) : KeyConfig :=
  { publicKeys := keys, threshold := thr.getD (.simple 1), next := nxt }

/-- Modelled from the spec: common sequencing precondition for non-inception
events, `sn = state.sn + 1` (with the prefix matching the state's). -/
def nonInceptionSn (st : IdentifierState) (ev : Event) : Except Error Unit :=
  if ev.pref ≠ st.pref then .error (.semanticError "Prefix mismatch")
  else if ev.sn ≠ st.sn + 1 then .error .eventOutOfOrder
  else .ok ()

/-- Modelled from the spec: a rotation must reproduce the previous state's
next-key commitment from its new key configuration. -/
def checkNxt (env : Env) (st : IdentifierState) (kc : KeyConfig) : Except Error Unit :=
  match st.current.next with
  | none => .error (.semanticError "No next key commitment")
  | some n =>
    if nxtCommitment env kc.threshold kc.publicKeys n.derivation = n
    then .ok ()
    else .error (.semanticError "Wrong next key commitment")

/-- Modelled from the spec: witness list update under a rotation. -/
def rotateWitnesses (st : IdentifierState) (wc : WitnessConfig) : List BasicPref :=
  (st.witnesses.filter (fun w => decide (w ∉ wc.prune))) ++ wc.graft

/-- Modelled from the spec: the per-kind event application semantics on the
bare event (checks that need the canonical bytes live in `applyMsg`). -/
def applyEvent (env : Env) (st : IdentifierState) (ev : Event) :
    Except Error IdentifierState :=
  match ev.eventData with
  | .icp e =>
    if st = IdentifierState.default ∧ ev.sn = 0 then
      .ok { pref := ev.pref, sn := 0, last := st.last, current := e.keyConfig,
            delegator := none, witnesses := e.witnessConfig.initialWitnesses,
            tally := e.witnessConfig.tally }
    else .error (.semanticError "Invalid inception")
  | .dip e =>
    if st = IdentifierState.default ∧ ev.sn = 0 then
      .ok { pref := ev.pref, sn := 0, last := st.last,
            current := e.inceptionData.keyConfig,
            delegator := some e.delegator,
            witnesses := e.inceptionData.witnessConfig.initialWitnesses,
            tally := e.inceptionData.witnessConfig.tally }
    else .error (.semanticError "Invalid inception")
  | .rot e => do
    nonInceptionSn st ev
    checkNxt env st e.keyConfig
    .ok { st with
          sn := ev.sn
          current := e.keyConfig
          witnesses := rotateWitnesses st e.witnessConfig
          tally := e.witnessConfig.tally }
  | .drt e => do
    nonInceptionSn st ev
    checkNxt env st e.rotationData.keyConfig
    .ok { st with
          sn := ev.sn
          current := e.rotationData.keyConfig
          witnesses := rotateWitnesses st e.rotationData.witnessConfig
          tally := e.rotationData.witnessConfig.tally }
  | .ixn _ => do
    nonInceptionSn st ev
    .ok { st with sn := ev.sn }
  | .rct _ => .error (.semanticError "Invalid event type")

/-- The previous-event digest carried by a non-inception payload. -/
def prevHashOf : EventData → Option SelfAddressingPref
  | .rot e => some e.previousEventHash
  | .ixn e => some e.previousEventHash
  | .drt e => some e.rotationData.previousEventHash
  | _ => none

/-- Modelled from the spec: inception prefix binding.  A basic prefix must
equal the single public key; a self-addressing prefix must bind the
canonical bytes; a delegated inception prefix is always self-addressing. -/
def inceptionBinding (env : Env) (msg : EventMessage) : Except Error Unit :=
  match msg.event.eventData with
  | .icp e =>
    (match msg.event.pref with
     | .basic bp =>
       if e.keyConfig.publicKeys = [bp] then .ok ()
       else .error (.semanticError "Invalid identifier binding")
     | .selfAddressing sap =>
       if verifyBinding env sap (env.ser msg) then .ok ()
       else .error (.semanticError "Invalid identifier binding")
     | .default => .error (.semanticError "Invalid identifier binding"))
  | .dip _ =>
    (match msg.event.pref with
     | .selfAddressing sap =>
       if verifyBinding env sap (env.ser msg) then .ok ()
       else .error (.semanticError "Invalid identifier binding")
     | _ => .error (.semanticError "Invalid identifier binding"))
  | _ => .ok ()

/-- Modelled from the spec: application of an event message to a state.  An
event equal to the already-accepted event at the same `sn` and prefix is a
duplicate; otherwise the bare semantics run, then the prefix binding and the
previous-event digest are checked, and `last` becomes the canonical bytes. -/
def applyMsg (env : Env) (st : IdentifierState) (msg : EventMessage) :
    Except Error IdentifierState :=
  if st.pref = msg.event.pref ∧ st.sn = msg.event.sn ∧ st.last = env.ser msg
  then .error .eventDuplicate
  else do
    let s ← applyEvent env st msg.event
    inceptionBinding env msg
    (match prevHashOf msg.event.eventData with
     | some p =>
       if verifyBinding env p st.last then Except.ok ()
       else .error (.semanticError "Incorrect previous event hash")
     | none => .ok ())
    .ok { s with last := env.ser msg }

/-- Modelled from the spec: application of a signed event message verifies
the signatures against the new state's current key configuration. -/
def applySigned (env : Env) (st : IdentifierState) (sev : SignedEventMessage) :
    Except Error IdentifierState := do
  let ns ← applyMsg env st sev.eventMessage
  let ok ← KeyConfig.verify env ns.current (env.ser sev.eventMessage) sev.signatures
  if ok then .ok ns else .error .sigVerification

/-- Modelled from the spec: the database holds, per identifier, the
finalized KEL, receipt tables, escrow tables and the duplicity log. -/
structure Db where
  kel : IdentifierPref → List SignedEventMessage
  receiptsT : IdentifierPref → List SignedTransferableReceipt
  receiptsNT : IdentifierPref → List SignedNontransferableReceipt
  escrowT : IdentifierPref → List SignedTransferableReceipt
  escrowNT : IdentifierPref → List SignedNontransferableReceipt
  duplicious : IdentifierPref → List SignedEventMessage

/-- Modelled from the spec: the database reports a KEL for a prefix only
when at least one finalized event exists for it. -/
def getKel (db : Db) (id : IdentifierPref) : Option (List SignedEventMessage) :=
  let l := db.kel id
  if l = [] then none else some l

/-- Modelled from the spec: append a finalized event to a prefix's KEL. -/
def addKelFinalizedEvent (db : Db) (sev : SignedEventMessage)
    (id : IdentifierPref) : Db :=
  { db with kel := fun i => if i = id then db.kel i ++ [sev] else db.kel i }

/-- Remove the first occurrence of an element. -/
def eraseFirst {α : Type} [DecidableEq α] (x : α) : List α → List α
  | [] => []
  | y :: ys => if y = x then ys else y :: eraseFirst x ys

/-- Remove the last occurrence of an element. -/
def removeLastOcc {α : Type} [DecidableEq α] (l : List α) (x : α) : List α :=
  (eraseFirst x l.reverse).reverse

/-- Modelled from the spec: remove the given signed event from the prefix's
finalized KEL; the most recently appended matching copy is the one removed
(the processor uses this to undo the append it just performed). -/
def removeKelFinalizedEvent (db : Db) (id : IdentifierPref)
    (sev : SignedEventMessage) : Db :=
  { db with kel := fun i => if i = id then removeLastOcc (db.kel i) sev else db.kel i }

/-- Modelled from the spec: append to the duplicity log. -/
def addDupliciousEvent (db : Db) (sev : SignedEventMessage)
    (id : IdentifierPref) : Db :=
  { db with duplicious := fun i => if i = id then db.duplicious i ++ [sev] else db.duplicious i }

/-- Modelled from the spec: persist a validator receipt. -/
def addReceiptT (db : Db) (r : SignedTransferableReceipt) (id : IdentifierPref) : Db :=
  { db with receiptsT := fun i => if i = id then db.receiptsT i ++ [r] else db.receiptsT i }

/-- Modelled from the spec: persist a witness receipt. -/
def addReceiptNT (db : Db) (r : SignedNontransferableReceipt) (id : IdentifierPref) : Db :=
  { db with receiptsNT := fun i => if i = id then db.receiptsNT i ++ [r] else db.receiptsNT i }

/-- Modelled from the spec: escrow a validator receipt. -/
def addEscrowT (db : Db) (r : SignedTransferableReceipt) (id : IdentifierPref) : Db :=
  { db with escrowT := fun i => if i = id then db.escrowT i ++ [r] else db.escrowT i }

/-- Modelled from the spec: escrow a witness receipt. -/
def addEscrowNT (db : Db) (r : SignedNontransferableReceipt) (id : IdentifierPref) : Db :=
  { db with escrowNT := fun i => if i = id then db.escrowNT i ++ [r] else db.escrowNT i }

/-- The sequence number of a stored signed event. -/
def snOf (e : SignedEventMessage) : Nat := e.eventMessage.event.sn

/-- Stable insertion by sequence number. -/
def insertBySn (x : SignedEventMessage) :
    List SignedEventMessage → List SignedEventMessage
  | [] => [x]
  | y :: ys => if snOf y ≤ snOf x then y :: insertBySn x ys else x :: y :: ys

/-- Modelled from the spec: sorting the stored events into ascending
sequence-number order (the source sorts before replaying). -/
def sortBySn (l : List SignedEventMessage) : List SignedEventMessage :=
  l.foldr insertBySn []

/-- Translated from `EventProcessor::get_event_at_sn`. -/
def getEventAtSn (db : Db) (id : IdentifierPref) (sn : Nat) :
    Option SignedEventMessage :=
  match getKel db id with
  | none => none
  | some evs => evs.find? (fun e => snOf e == sn)

/-- Translated from the replay loop of `EventProcessor::compute_state`:
skip events failing with `EventOutOfOrder` or `NotEnoughSigs`, stop at the
last good state on any other failure. -/
def computeStateLoop (env : Env) (st : IdentifierState) :
    List SignedEventMessage → IdentifierState
  | [] => st
  | e :: rest =>
    match applySigned env st e with
    | .ok s => computeStateLoop env s rest
    | .error .eventOutOfOrder => computeStateLoop env st rest
    | .error .notEnoughSigs => computeStateLoop env st rest
    | .error _ => st

/-- Translated from `EventProcessor::compute_state`. -/
def computeState (env : Env) (db : Db) (id : IdentifierPref) :
    Except Error (Option IdentifierState) :=
  match getKel db id with
  | none => .ok none
  | some evs => .ok (some (computeStateLoop env IdentifierState.default (sortBySn evs)))

/-- Translated from the loop of `EventProcessor::compute_state_at_sn`: the
bare event message is applied and any failure propagates. -/
def computeStateAtSnLoop (env : Env) (st : IdentifierState) :
    List SignedEventMessage → Except Error IdentifierState
  | [] => .ok st
  | e :: rest =>
    match applyMsg env st e.eventMessage with
    | .ok s => computeStateAtSnLoop env s rest
    | .error err => .error err

/-- Translated from `EventProcessor::compute_state_at_sn`. -/
def computeStateAtSn (env : Env) (db : Db) (id : IdentifierPref) (sn : Nat) :
    Except Error (Option IdentifierState) :=
  match getKel db id with
  | none => .ok none
  | some evs =>
    (computeStateAtSnLoop env IdentifierState.default
      ((sortBySn evs).filter (fun e => snOf e ≤ sn))).map some

/-- Translated from the loop of
`EventProcessor::get_last_establishment_event_seal`: the bare event is
applied (errors propagate) and the tracker is updated on `Icp` and `Rot`. -/
def lastEstLoop (env : Env) (st : IdentifierState)
    (acc : Option SignedEventMessage) :
    List SignedEventMessage → Except Error (Option SignedEventMessage)
  | [] => .ok acc
  | e :: rest =>
    match applyEvent env st e.eventMessage.event with
    | .error err => .error err
    | .ok s =>
      lastEstLoop env s
        (match e.eventMessage.event.eventData with
         | .icp _ => some e
         | .rot _ => some e
         | _ => acc) rest

/-- The seal built from a stored signed event: its prefix, its sequence
number, and the Blake3-256 digest of the serialized signed event. -/
def mkEstSeal (env : Env) (sev : SignedEventMessage) : EventSeal :=
  { pref := sev.eventMessage.event.pref
    sn := sev.eventMessage.event.sn
    eventDigest :=
      { derivation := SelfAddressing.blake3_256
        digest := env.digest SelfAddressing.blake3_256 (env.serSigned sev) } }

/-- Translated from `EventProcessor::get_last_establishment_event_seal`. -/
def getLastEstablishmentEventSeal (env : Env) (db : Db) (id : IdentifierPref) :
    Except Error (Option EventSeal) :=
  match getKel db id with
  | none => .ok none
  | some evs =>
    match lastEstLoop env IdentifierState.default none evs with
    | .error e => .error e
    | .ok lastEst => .ok (lastEst.map (mkEstSeal env))

/-- Translated from `EventProcessor::get_keys_at_event`. -/
def getKeysAtEvent (env : Env) (db : Db) (id : IdentifierPref) (sn : Nat)
    (eventDigest : SelfAddressingPref) : Except Error (Option KeyConfig) :=
  match getEventAtSn db id sn with
  | some tsev =>
    if verifyBinding env eventDigest (env.ser tsev.eventMessage) then
      match tsev.eventMessage.event.eventData with
      | .icp e => .ok (some e.keyConfig)
      | .rot e => .ok (some e.keyConfig)
      | .dip e => .ok (some e.inceptionData.keyConfig)
      | .drt e => .ok (some e.keyConfig)
      | _ => .error (.semanticError "Receipt binding incorrect")
    else .error (.semanticError "Event digests do not match")
  | none => .error (.semanticError "No event of given sn and prefix in database")

/-- The `data` seal list of a delegating event, as extracted by
`validate_seal` (only rotations, interactions and delegated rotations
carry one there). -/
def sealData : EventData → Option (List Seal)
  | .rot e => some e.data
  | .ixn e => some e.data
  | .drt e => some e.data
  | _ => none

/-- Translated from `EventProcessor::validate_seal`. -/
def validateSeal (env : Env) (db : Db) (sl : EventSeal)
    (delegatedBytes : Bytes) : Except Error Unit :=
  match getEventAtSn db sl.pref sl.sn with
  | some tsev =>
    match sealData tsev.eventMessage.event.eventData with
    | some data =>
      if data.any (fun s =>
           match s with
           | .event es => verifyBinding env es.eventDigest delegatedBytes
           | _ => false)
      then .ok ()
      else .error (.semanticError "Data field does not contain delegating event seal")
    | none => .error (.semanticError "Improper event type")
  | none => .error .eventOutOfOrder

/-- Translated from `EventProcessor::find_source_seal`: the last attachment
must be a `SealSourceCouplets` list, whose last entry is used. -/
def findSourceSeal (sev : SignedEventMessage) :
    Except Error (Nat × SelfAddressingPref) :=
  match sev.attachments.getLast? with
  | none => .error (.semanticError "Missing source seal")
  | some (.sealSourceCouplets l) =>
    match l.getLast? with
    | some ss => .ok (ss.sn, ss.digest)
    | none => .error (.semanticError "Missing source seal")
  | some _ => .error (.semanticError "Missing source seal")

/-- Translated from `EventProcessor::apply_to_state`. -/
def applyToState (env : Env) (db : Db) (msg : EventMessage) :
    Except Error IdentifierState :=
  match computeState env db msg.event.pref with
  | .error e => .error e
  | .ok opt => applyMsg env (opt.getD IdentifierState.default) msg

/-- Translated from the delegation precheck of
`EventProcessor::process_event` (the match on `Dip` and `Drt`). -/
def delegCheck (env : Env) (db : Db) (sev : SignedEventMessage) :
    Except Error Unit :=
  match sev.eventMessage.event.eventData with
  | .dip d => do
    let sd ← findSourceSeal sev
    validateSeal env db
      { pref := d.delegator, sn := sd.1, eventDigest := sd.2 }
      (env.ser sev.eventMessage)
  | .drt _ => do
    let stOpt ← computeState env db sev.eventMessage.event.pref
    let st ← (match stOpt with
      | some st => Except.ok st
      | none => .error (.semanticError "Missing state of delegated identifier"))
    let dlg ← (match st.delegator with
      | some dlg => Except.ok dlg
      | none => .error (.semanticError "Missing delegator"))
    let sd ← findSourceSeal sev
    validateSeal env db
      { pref := dlg, sn := sd.1, eventDigest := sd.2 }
      (env.ser sev.eventMessage)
  | _ => .ok ()

/-- Observable database operations of `process_event`, in order. -/
inductive DbOp
  | addKel (sev : SignedEventMessage) (id : IdentifierPref)
  | removeKel (id : IdentifierPref) (sev : SignedEventMessage)
  | addDup (sev : SignedEventMessage) (id : IdentifierPref)
  | verifyWith (kc : KeyConfig) (data : Bytes) (sigs : List IndexedSig)
deriving DecidableEq

/-- Result of `process_event`: the returned value, the database after the
call, and the trace of database and verification steps in order. -/
structure ProcResult where
  result : Except Error (Option IdentifierState)
  db : Db
  trace : List DbOp

/-- Translated from `EventProcessor::process_event`: delegation precheck,
then apply, then append to the KEL, then verify the signatures against the
new state's current keys; on failure the just-appended event is removed
(with a duplicity-log append first when the error is a duplicate). -/
def processEvent (env : Env) (db : Db) (sev : SignedEventMessage) : ProcResult :=
  let id := sev.eventMessage.event.pref
  match delegCheck env db sev with
  | .error e => { result := .error e, db := db, trace := [] }
  | .ok _ =>
    match applyToState env db sev.eventMessage with
    | .error e => { result := .error e, db := db, trace := [] }
    | .ok newState =>
      let db1 := addKelFinalizedEvent db sev id
      let bytes := env.ser sev.eventMessage
      let tr := [DbOp.addKel sev id, DbOp.verifyWith newState.current bytes sev.signatures]
      match KeyConfig.verify env newState.current bytes sev.signatures with
      | .ok true => { result := .ok (some newState), db := db1, trace := tr }
      | .ok false =>
        { result := .error .sigVerification
          db := removeKelFinalizedEvent db1 id sev
          trace := tr ++ [DbOp.removeKel id sev] }
      | .error e =>
        if e = .eventDuplicate then
          let db2 := addDupliciousEvent db1 sev id
          { result := .error e
            db := removeKelFinalizedEvent db2 id sev
            trace := tr ++ [DbOp.addDup sev id, DbOp.removeKel id sev] }
        else
          { result := .error e
            db := removeKelFinalizedEvent db1 id sev
            trace := tr ++ [DbOp.removeKel id sev] }

/-- The per-couplet verification failures of a witness receipt, in couplet
order (a couplet whose verification returns a boolean contributes none). -/
def wrcErrors (env : Env) (rct : SignedNontransferableReceipt)
    (tsev : SignedEventMessage) : List Error :=
  (rct.couplets.map (fun c => env.verifyRaw c.1.key (env.serSigned tsev) c.2)).filterMap
    (fun r => match r with | .error e => some e | .ok _ => none)

/-- Translated from `EventProcessor::process_witness_receipt`. -/
def processWitnessReceipt (env : Env) (db : Db)
    (rct : SignedNontransferableReceipt) :
    (Except Error (Option IdentifierState)) × Db :=
  match rct.body.event.eventData with
  | .rct _ =>
    let id := rct.body.event.pref
    match getEventAtSn db id rct.body.event.sn with
    | some tsev =>
      match (wrcErrors env rct tsev).getLast? with
      | none =>
        let db1 := addReceiptNT db rct id
        (computeState env db1 id, db1)
      | some e => (.error e, db)
    | none =>
      let db1 := addEscrowNT db rct id
      (computeState env db1 id, db1)
  | _ => (.error (.semanticError "incorrect receipt structure"), db)

/-- Translated from `EventProcessor::process_validator_receipt`. -/
def processValidatorReceipt (env : Env) (db : Db)
    (vrc : SignedTransferableReceipt) :
    (Except Error (Option IdentifierState)) × Db :=
  match vrc.body.event.eventData with
  | .rct _ =>
    match getEventAtSn db vrc.body.event.pref vrc.body.event.sn with
    | some tsev =>
      match getKeysAtEvent env db vrc.validatorSeal.pref vrc.validatorSeal.sn
        vrc.validatorSeal.eventDigest with
      | .error e => (.error e, db)
      | .ok kp =>
        match kp with
        | some k =>
          match KeyConfig.verify env k (env.ser tsev.eventMessage) vrc.signatures with
          | .error e => (.error e, db)
          | .ok true =>
            let db1 := addReceiptT db vrc vrc.body.event.pref
            (computeState env db1 vrc.body.event.pref, db1)
          | .ok false => (.error (.semanticError "Incorrect receipt signatures"), db)
        | none => (.error (.semanticError "Incorrect receipt signatures"), db)
    | none =>
      let db1 := addEscrowT db vrc vrc.body.event.pref
      (.error (.semanticError "Receipt escrowed"), db1)
  | _ => (.error (.semanticError "incorrect receipt structure"), db)

/-- Translated from `EventProcessor::has_receipt`. -/
def hasReceipt (db : Db) (id : IdentifierPref) (sn : Nat)
    (validatorPref : IdentifierPref) : Bool :=
  (db.receiptsT id).any (fun r =>
    r.body.event.sn == sn && r.validatorSeal.pref == validatorPref)

/-- Translated from `event_msg_builder.rs`: the builder's event kinds. -/
inductive EventType
  | inception
  | rotation
  | interaction
  | delegatedInception
  | delegatedRotation
deriving DecidableEq

/-- Translated from `EventType::is_establishment_event`. -/
def EventType.isEstablishmentEvent : EventType → Bool
  | .inception => true
  | .rotation => true
  | .delegatedInception => true
  | .delegatedRotation => true
  | _ => false

/-- Translated from `event_msg_builder.rs`: the builder's fields (the random
key generation of `new` is a caller concern and not modelled). -/
structure EventMsgBuilder where
  eventType : EventType
  pref : IdentifierPref
  sn : Nat
  keyThreshold : SignatureThreshold
  keys : List BasicPref
  nextKeys : List BasicPref
  prevEvent : SelfAddressingPref
  data : List Seal
  delegator : IdentifierPref
  fmt : SerializationFormats
  derivation : SelfAddressing
deriving DecidableEq

/-- Translated from `EventMsgBuilder::with_sn`. -/
def EventMsgBuilder.withSn (b : EventMsgBuilder) (sn : Nat) : EventMsgBuilder :=
  { b with sn := sn }

/-- Translated from `EventMsgBuilder::with_keys`. -/
def EventMsgBuilder.withKeys (b : EventMsgBuilder) (keys : List BasicPref) :
    EventMsgBuilder :=
  { b with keys := keys }

/-- Translated from `EventMsgBuilder::with_threshold`. -/
def EventMsgBuilder.withThreshold (b : EventMsgBuilder)
    (thr : SignatureThreshold) : EventMsgBuilder :=
  { b with keyThreshold := thr }

/-- Modelled from the spec: for self-addressing inception the prefix is
computed by self-derivation after serializing with a placeholder prefix. -/
def inceptSelfAddressing (env : Env) (icp : InceptionEvent)
    (d : SelfAddressing) (fmt : SerializationFormats) : EventMessage :=
  let dummy : EventMessage :=
    { event := { pref := IdentifierPref.default, sn := 0, eventData := .icp icp }
      fmt := fmt }
  { event :=
      { pref := IdentifierPref.selfAddressing
          { derivation := d, digest := env.digest d (env.ser dummy) }
        sn := 0
        eventData := .icp icp }
    fmt := fmt }

/-- Modelled from the spec: self-addressing derivation of a delegated
inception prefix after serialization. -/
def dipInceptSelfAddressing (env : Env) (dip : DelegatedInceptionEvent)
    (d : SelfAddressing) (fmt : SerializationFormats) : EventMessage :=
  let dummy : EventMessage :=
    { event := { pref := IdentifierPref.default, sn := 0, eventData := .dip dip }
      fmt := fmt }
  { event :=
      { pref := IdentifierPref.selfAddressing
          { derivation := d, digest := env.digest d (env.ser dummy) }
        sn := 0
        eventData := .dip dip }
    fmt := fmt }

/-- Translated from `EventMsgBuilder::build`.  The `todo!()` arm for an
inception with an unset prefix and several keys is modelled as an error. -/
def EventMsgBuilder.build (env : Env) (b : EventMsgBuilder) :
    Except Error EventMessage :=
  let nextKeyHash := nxtCommitment env b.keyThreshold b.nextKeys SelfAddressing.blake3_256
  let keyConfig := KeyConfig.new b.keys (some nextKeyHash) (some b.keyThreshold)
  let prefOut :=
    if b.pref = IdentifierPref.default ∧ keyConfig.publicKeys.length = 1
    then IdentifierPref.basic (keyConfig.publicKeys.headD { key := [] })
    else b.pref
  match b.eventType with
  | .inception =>
    let icpEvent : InceptionEvent :=
      { keyConfig := keyConfig
        witnessConfig := { tally := 0, initialWitnesses := [] }
        inceptionConfiguration := []
        data := [] }
    (match prefOut with
     | .basic _ =>
       .ok { event := { pref := prefOut, sn := 0, eventData := .icp icpEvent }
             fmt := b.fmt }
     | .selfAddressing _ => .ok (inceptSelfAddressing env icpEvent b.derivation b.fmt)
     | .default => .error (.semanticError "not implemented"))
  | .rotation =>
    .ok { event :=
            { pref := prefOut
              sn := b.sn
              eventData := .rot
                { previousEventHash := b.prevEvent
                  keyConfig := keyConfig
                  witnessConfig := { tally := 0, graft := [], prune := [] }
                  data := b.data } }
          fmt := b.fmt }
  | .interaction =>
    .ok { event :=
            { pref := prefOut
              sn := b.sn
              eventData := .ixn
                { previousEventHash := b.prevEvent, data := b.data } }
          fmt := b.fmt }
  | .delegatedInception =>
    let icpData : InceptionEvent :=
      { keyConfig := keyConfig
        witnessConfig := { tally := 0, initialWitnesses := [] }
        inceptionConfiguration := []
        data := [] }
    .ok (dipInceptSelfAddressing env
      { inceptionData := icpData, delegator := b.delegator } b.derivation b.fmt)
  | .delegatedRotation =>
    .ok { event :=
            { pref := prefOut
              sn := b.sn
              eventData := .drt
                { rotationData :=
                    { previousEventHash := b.prevEvent
                      keyConfig := keyConfig
                      witnessConfig := { tally := 0, graft := [], prune := [] }
                      data := b.data } } }
          fmt := b.fmt }

/-- One step of the replay fold as the specification words it: skip an event
failing with `EventOutOfOrder` or `NotEnoughSigs`; on any other failure stop
(the flag) and keep the last successfully computed state. -/
def replayStep (env : Env) (acc : IdentifierState × Bool)
    (ev : SignedEventMessage) : IdentifierState × Bool :=
  match acc with
  | (st, true) => (st, true)
  | (st, false) =>
    match applySigned env st ev with
    | .ok s => (s, false)
    | .error .eventOutOfOrder => (st, false)
    | .error .notEnoughSigs => (st, false)
    | .error _ => (st, true)

/-- The specification's description of `compute_state`: no KEL means no
state; otherwise fold the events in ascending sequence-number order from the
default state with the skip-or-stop step. -/
def computeStateSpec (env : Env) (db : Db) (id : IdentifierPref) :
    Except Error (Option IdentifierState) :=
  match getKel db id with
  | none => .ok none
  | some evs =>
    .ok (some ((sortBySn evs).foldl (replayStep env)
      (IdentifierState.default, false)).1)

/-- The plain error-propagating fold that `compute_state_at_sn` actually
performs over the events of sequence number at most `sn`. -/
def computeStateAtSnSpec (env : Env) (db : Db) (id : IdentifierPref) (sn : Nat) :
    Except Error (Option IdentifierState) :=
  match getKel db id with
  | none => .ok none
  | some evs =>
    (((sortBySn evs).filter (fun e => snOf e ≤ sn)).foldlM
      (fun st e => applyMsg env st e.eventMessage) IdentifierState.default).map some

/-- The last event in stored order whose payload is an inception or a
rotation (the two kinds the seal lookup tracks). -/
def findLastIcpRot : List SignedEventMessage → Option SignedEventMessage
  | [] => none
  | e :: rest =>
    match findLastIcpRot rest with
    | some x => some x
    | none =>
      match e.eventMessage.event.eventData with
      | .icp _ => some e
      | .rot _ => some e
      | _ => none

/-- Modelled from the spec glossary: establishment events are `icp`, `rot`,
`dip` and `drt`. -/
def isEstablishmentData : EventData → Bool
  | .icp _ => true
  | .rot _ => true
  | .dip _ => true
  | .drt _ => true
  | _ => false

/-- The delegator a delegated event is checked against: the payload's
delegator for a delegated inception, the current state's delegator for a
delegated rotation. -/
def delegatorOf (env : Env) (db : Db) (sev : SignedEventMessage) :
    Option IdentifierPref :=
  match sev.eventMessage.event.eventData with
  | .dip d => some d.delegator
  | .drt _ =>
    match computeState env db sev.eventMessage.event.pref with
    | .ok (some st) => st.delegator
    | _ => none
  | _ => none

/-- Whether a seal list contains an event seal binding the given bytes. -/
def sealMatchB (env : Env) (d : Option (List Seal)) (bytes : Bytes) : Bool :=
  match d with
  | none => false
  | some l =>
    l.any (fun s =>
      match s with
      | .event es => verifyBinding env es.eventDigest bytes
      | _ => false)

/-- The delegation-binding property: the delegator's KEL contains, at the
given sequence number, an event whose data field holds an event seal whose
digest binds the given bytes. -/
def sealMatch (env : Env) (db : Db) (dlg : IdentifierPref) (sn : Nat)
    (bytes : Bytes) : Prop :=
  ∃ tsev, getEventAtSn db dlg sn = some tsev ∧
    sealMatchB env (sealData tsev.eventMessage.event.eventData) bytes = true

/-- A database with only finalized KELs populated. -/
def mkDb (kel : IdentifierPref → List SignedEventMessage) : Db :=
  { kel := kel
    receiptsT := fun _ => []
    receiptsNT := fun _ => []
    escrowT := fun _ => []
    escrowNT := fun _ => []
    duplicious := fun _ => [] }

/-- Concrete fixture: a controller key. -/
def cKey : BasicPref := { key := [7] }

/-- Concrete fixture: the controller's basic identifier. -/
def cPref : IdentifierPref := .basic cKey

/-- Concrete fixture: a single-key key configuration with threshold one. -/
def cKC : KeyConfig := { publicKeys := [cKey], threshold := .simple 1, next := none }

/-- Concrete fixture: the controller's inception message. -/
def cIcpMsg : EventMessage :=
  { event :=
      { pref := cPref
        sn := 0
        eventData := .icp
          { keyConfig := cKC
            witnessConfig := { tally := 0, initialWitnesses := [] }
            inceptionConfiguration := []
            data := [] } }
    fmt := .json }

/-- Concrete fixture: the signed inception. -/
def cIcp : SignedEventMessage :=
  { eventMessage := cIcpMsg
    signatures := [{ index := 0, signature := [9] }]
    attachments := [] }

/-- Concrete fixture: a permissive environment whose raw verifier accepts
every signature and whose serializers tag events by sequence number. -/
def cEnv : Env :=
  { digest := fun _ d => 0 :: d
    verifyRaw := fun _ _ _ => .ok true
    ser := fun m => [m.event.sn + 1]
    serSigned := fun s => [s.eventMessage.event.sn + 2] }

/-- Concrete fixture: the empty database. -/
def emptyDb : Db := mkDb (fun _ => [])

/-- Concrete fixture: a database whose only finalized event is `cIcp`. -/
def cDb1 : Db := mkDb (fun i => if i = cPref then [cIcp] else [])

/-- Concrete fixture: the state after the inception under `cEnv`. -/
def cSt1 : IdentifierState :=
  { pref := cPref, sn := 0, last := [1], current := cKC,
    delegator := none, witnesses := [], tally := 0 }

/-- Concrete fixture: an interaction at sequence number five (a gap). -/
def cIxn5 : SignedEventMessage :=
  { eventMessage :=
      { event :=
          { pref := cPref
            sn := 5
            eventData := .ixn
              { previousEventHash := { derivation := .blake3_256, digest := [0] }
                data := [] } }
        fmt := .json }
    signatures := [{ index := 0, signature := [9] }]
    attachments := [] }

/-- Concrete fixture: a KEL holding the inception and the gap event. -/
def cDb5 : Db := mkDb (fun i => if i = cPref then [cIcp, cIxn5] else [])

/-- Concrete fixture: a delegator identifier. -/
def cBobPref : IdentifierPref := .basic { key := [8] }

/-- Concrete fixture: the delegated child's self-addressing identifier. -/
def cChildPref : IdentifierPref :=
  .selfAddressing { derivation := .blake3_256, digest := [3] }

/-- Concrete fixture: a signed delegated inception with a source seal. -/
def cDip : SignedEventMessage :=
  { eventMessage :=
      { event :=
          { pref := cChildPref
            sn := 0
            eventData := .dip
              { inceptionData :=
                  { keyConfig := cKC
                    witnessConfig := { tally := 0, initialWitnesses := [] }
                    inceptionConfiguration := []
                    data := [] }
                delegator := cBobPref } }
        fmt := .json }
    signatures := []
    attachments := [.sealSourceCouplets
      [{ sn := 1, digest := { derivation := .blake3_256, digest := [4] } }]] }

/-- Concrete fixture: a KEL holding only the delegated inception. -/
def cDb6 : Db := mkDb (fun i => if i = cChildPref then [cDip] else [])

/-- Concrete fixture: a witness receipt with two couplets. -/
def cRct : SignedNontransferableReceipt :=
  { body :=
      { event :=
          { pref := cPref
            sn := 0
            eventData := .rct { derivation := .blake3_256, digest := [5] } }
        fmt := .json }
    couplets := [({ key := [11] }, [1]), ({ key := [12] }, [1])] }

/-- Concrete fixture: an environment whose raw verifier fails with a
distinct error for each of the two receipt witnesses. -/
def cEnv7 : Env :=
  { cEnv with
    verifyRaw := fun k _ _ =>
      if k = [11] then .error (.semanticError "e1")
      else if k = [12] then .error (.semanticError "e2")
      else .ok true }

/-- Concrete fixture: an inception builder configuration. -/
def cBuilder : EventMsgBuilder :=
  { eventType := .inception
    pref := .default
    sn := 3
    keyThreshold := .simple 1
    keys := [cKey]
    nextKeys := [cKey]
    prevEvent := { derivation := .blake3_256, digest := [0] }
    data := []
    delegator := .default
    fmt := .json
    derivation := .blake3_256 }


/-! ## Supporting lemmas -/

/-- Once the replay fold has stopped it no longer changes. -/
theorem foldl_replayStep_stopped (env : Env) :
    ∀ (evs : List SignedEventMessage) (st : IdentifierState),
    evs.foldl (replayStep env) (st, true) = (st, true) := by
  intro evs
  induction evs with
  | nil => intro st; rfl
  | cons e rest ih => intro st; simpa [replayStep] using ih st

/-- The source replay loop equals the specification's skip-or-stop fold. -/
theorem computeStateLoop_eq_foldl (env : Env) :
    ∀ (evs : List SignedEventMessage) (st : IdentifierState),
    computeStateLoop env st evs = (evs.foldl (replayStep env) (st, false)).1 := by
  intro evs
  induction evs with
  | nil => intro st; rfl
  | cons e rest ih =>
    intro st
    cases h : applySigned env st e with
    | ok s => simp [computeStateLoop, List.foldl_cons, replayStep, h, ih]
    | error err =>
      cases err with
      | eventOutOfOrder =>
        simp [computeStateLoop, List.foldl_cons, replayStep, h, ih]
      | notEnoughSigs =>
        simp [computeStateLoop, List.foldl_cons, replayStep, h, ih]
      | sigVerification =>
        simp [computeStateLoop, List.foldl_cons, replayStep, h,
          foldl_replayStep_stopped]
      | eventDuplicate =>
        simp [computeStateLoop, List.foldl_cons, replayStep, h,
          foldl_replayStep_stopped]
      | semanticError m =>
        simp [computeStateLoop, List.foldl_cons, replayStep, h,
          foldl_replayStep_stopped]

/-- Membership in an insertion. -/
theorem mem_insertBySn {x y : SignedEventMessage} :
    ∀ {l : List SignedEventMessage}, y ∈ insertBySn x l ↔ y = x ∨ y ∈ l := by
  intro l
  induction l with
  | nil => simp [insertBySn]
  | cons z zs ih =>
    by_cases h : snOf z ≤ snOf x
    · simp only [insertBySn, if_pos h, List.mem_cons, ih]
      tauto
    · simp [insertBySn, if_neg h]

/-- Insertion preserves sortedness by sequence number. -/
theorem insertBySn_pairwise {x : SignedEventMessage} :
    ∀ {l : List SignedEventMessage},
    l.Pairwise (fun a b => snOf a ≤ snOf b) →
    (insertBySn x l).Pairwise (fun a b => snOf a ≤ snOf b) := by
  intro l
  induction l with
  | nil => intro _; simp [insertBySn]
  | cons z zs ih =>
    intro h
    rw [List.pairwise_cons] at h
    obtain ⟨hz, hzs⟩ := h
    by_cases hle : snOf z ≤ snOf x
    · rw [insertBySn, if_pos hle, List.pairwise_cons]
      refine ⟨?_, ih hzs⟩
      intro b hb
      rcases mem_insertBySn.mp hb with hb | hb
      · exact hb ▸ hle
      · exact hz b hb
    · rw [insertBySn, if_neg hle, List.pairwise_cons]
      refine ⟨?_, List.pairwise_cons.mpr ⟨hz, hzs⟩⟩
      intro b hb
      have hxz : snOf x ≤ snOf z := Nat.le_of_not_le hle
      rcases List.mem_cons.mp hb with hb | hb
      · exact hb ▸ hxz
      · exact Nat.le_trans hxz (hz b hb)

/-- The replay order is ascending in sequence number. -/
theorem sortBySn_pairwise :
    ∀ l : List SignedEventMessage,
    (sortBySn l).Pairwise (fun a b => snOf a ≤ snOf b) := by
  intro l
  induction l with
  | nil => simp [sortBySn]
  | cons e rest ih => exact insertBySn_pairwise ih

/-- Binding a success in `Except` applies the continuation. -/
theorem exceptBind_ok {ε α β : Type} (a : α) (k : α → Except ε β) :
    (Except.ok a >>= k) = k a := rfl

/-- Binding a failure in `Except` propagates it. -/
theorem exceptBind_error {ε α β : Type} (e : ε) (k : α → Except ε β) :
    ((Except.error e : Except ε α) >>= k) = Except.error e := rfl

/-- The error-propagating loop is the monadic fold. -/
theorem computeStateAtSnLoop_eq_foldlM (env : Env) :
    ∀ (evs : List SignedEventMessage) (st : IdentifierState),
    computeStateAtSnLoop env st evs =
      evs.foldlM (fun st e => applyMsg env st e.eventMessage) st := by
  intro evs
  induction evs with
  | nil => intro st; rfl
  | cons e rest ih =>
    intro st
    cases h : applyMsg env st e.eventMessage with
    | ok s =>
      simp only [computeStateAtSnLoop, h, List.foldlM_cons, exceptBind_ok]
      exact ih s
    | error err =>
      simp only [computeStateAtSnLoop, h, List.foldlM_cons, exceptBind_error]

/-- With a raw verifier that never reports a duplicate, indexed-signature
verification never reports a duplicate. -/
theorem verifySigs_no_dup (env : Env) (keys : List BasicPref) (data : Bytes)
    (henv : ∀ k d s, env.verifyRaw k d s ≠ .error .eventDuplicate) :
    ∀ sigs, verifySigs env keys data sigs ≠ .error .eventDuplicate := by
  intro sigs
  induction sigs with
  | nil => simp [verifySigs]
  | cons s rest ih =>
    intro hc
    rw [verifySigs] at hc
    split at hc
    next => simp at hc
    next pk hk =>
      split at hc
      next e h =>
        rw [Except.error.injEq] at hc
        exact henv pk.key data s.signature (hc ▸ h)
      next b h =>
        split at hc
        next e hr =>
          rw [Except.error.injEq] at hc
          exact ih (hc ▸ hr)
        next => simp at hc

/-- With a raw verifier that never reports a duplicate, threshold signature
verification never reports a duplicate. -/
theorem keyConfigVerify_no_dup (env : Env) (kc : KeyConfig) (data : Bytes)
    (sigs : List IndexedSig)
    (henv : ∀ k d s, env.verifyRaw k d s ≠ .error .eventDuplicate) :
    KeyConfig.verify env kc data sigs ≠ .error .eventDuplicate := by
  rw [KeyConfig.verify]
  cases h : verifySigs env kc.publicKeys data sigs with
  | error e =>
    intro hc
    rw [Except.error.injEq] at hc
    exact verifySigs_no_dup env kc.publicKeys data henv sigs (hc ▸ h)
  | ok bs =>
    dsimp only []
    split
    · simp
    · cases kc.threshold <;> dsimp only [] <;> split <;> simp

/-- Erasing the last copy of a just-appended element restores the list. -/
theorem removeLastOcc_append {α : Type} [DecidableEq α] (l : List α) (x : α) :
    removeLastOcc (l ++ [x]) x = l := by
  rw [removeLastOcc, List.reverse_append]
  simp [eraseFirst]

/-- Removing an event just appended to a KEL restores the database. -/
theorem remove_add_kel (db : Db) (sev : SignedEventMessage) (id : IdentifierPref) :
    removeKelFinalizedEvent (addKelFinalizedEvent db sev id) id sev = db := by
  cases db with
  | mk kel rT rNT eT eNT dup =>
    rw [addKelFinalizedEvent, removeKelFinalizedEvent]
    congr 1
    funext i
    by_cases hi : i = id
    · simp [hi, removeLastOcc_append]
    · simp [hi]

/-- The replay never fails (shared form of claim C10). -/
theorem computeState_never_errors (env : Env) (db : Db) (id : IdentifierPref) :
    ∃ r, computeState env db id = .ok r := by
  rw [computeState]
  cases getKel db id <;> exact ⟨_, rfl⟩

/-! ## Claim theorems -/

/-- Claim C3: `compute_state` folds the finalized events in ascending
sequence-number order from the default state, skips an event whose
application fails with `EventOutOfOrder` or `NotEnoughSigs`, stops with the
last successfully computed state on any other failure, and returns `none`
for a prefix with no finalized events; the replay order is ascending. -/
theorem c3_compute_state :
    (∀ (env : Env) (db : Db) (id : IdentifierPref),
      computeState env db id = computeStateSpec env db id) ∧
    ∀ l : List SignedEventMessage,
      (sortBySn l).Pairwise (fun a b => snOf a ≤ snOf b) := by
  constructor
  · intro env db id
    rw [computeState, computeStateSpec]
    cases getKel db id with
    | none => rfl
    | some evs =>
      exact congrArg (fun x => Except.ok (some x))
        (computeStateLoop_eq_foldl env (sortBySn evs) IdentifierState.default)
  · exact sortBySn_pairwise

/-- Claim C5 (amended): `compute_state_at_sn` folds the finalized events of
sequence number at most `sn` in ascending order from the default state,
applying each bare event message (without signature verification) and
propagating the first application failure to the caller. -/
theorem c5_amended (env : Env) (db : Db) (id : IdentifierPref) (sn : Nat) :
    computeStateAtSn env db id sn = computeStateAtSnSpec env db id sn := by
  rw [computeStateAtSn, computeStateAtSnSpec]
  cases getKel db id with
  | none => rfl
  | some evs =>
    exact congrArg (Except.map some)
      (computeStateAtSnLoop_eq_foldlM env
        ((sortBySn evs).filter (fun e => snOf e ≤ sn)) IdentifierState.default)

/-- Claim C5 (counterexample): on a KEL whose replay hits an
`EventOutOfOrder`, `compute_state_at_sn` propagates the error to the caller
while `compute_state` succeeds by skipping, so the two folds differ. -/
theorem c5_counterexample :
    computeStateAtSn cEnv cDb5 cPref 5 = .error .eventOutOfOrder ∧
    (computeState cEnv cDb5 cPref).isOk = true := ⟨rfl, rfl⟩

/-- Claim C8: processing a validator receipt never modifies any finalized
KEL; in particular the receipted identifier's computed state is unchanged,
whether the receipt is persisted, escrowed, or rejected. -/
theorem c8_validator_receipt_frame (env : Env) (db : Db)
    (vrc : SignedTransferableReceipt) :
    ((processValidatorReceipt env db vrc).2).kel = db.kel ∧
    computeState env (processValidatorReceipt env db vrc).2 vrc.body.event.pref =
      computeState env db vrc.body.event.pref := by
  rw [processValidatorReceipt]
  split
  · split
    · split
      · exact ⟨rfl, rfl⟩
      · split
        · split
          · exact ⟨rfl, rfl⟩
          · exact ⟨rfl, rfl⟩
          · exact ⟨rfl, rfl⟩
        · exact ⟨rfl, rfl⟩
    · exact ⟨rfl, rfl⟩
  · exact ⟨rfl, rfl⟩

/-- Claim C10: `compute_state` never returns an error: it returns `Ok None`
exactly when the database has no finalized KEL for the prefix, and an `Ok
Some` state otherwise, swallowing every per-event application failure. -/
theorem c10_compute_state_total (env : Env) (db : Db) (id : IdentifierPref) :
    (computeState env db id).isOk = true ∧
    (computeState env db id = .ok none ↔ getKel db id = none) := by
  rw [computeState]
  cases getKel db id with
  | none => exact ⟨rfl, by simp⟩
  | some evs => exact ⟨rfl, by simp⟩

/-- Claim C1 (amended): whenever `process_event` returns an error,
`EventDuplicate` included, the entire database — the finalized KEL of the
event's prefix in particular — is identical to its pre-call state; no
duplicity-log entry is written, because a duplicate is detected while
computing the new state, before the append, so the duplicity-log branch of
the failure handler is never reached. -/
theorem c1_amended (env : Env) (db : Db) (sev : SignedEventMessage)
    (henv : ∀ k d s, env.verifyRaw k d s ≠ .error .eventDuplicate)
    (e : Error) (herr : (processEvent env db sev).result = .error e) :
    (processEvent env db sev).db = db := by
  cases hd : delegCheck env db sev with
  | error e1 => simp [processEvent, hd]
  | ok u =>
    cases ha : applyToState env db sev.eventMessage with
    | error e2 => simp [processEvent, hd, ha]
    | ok ns =>
      cases hv : KeyConfig.verify env ns.current (env.ser sev.eventMessage)
          sev.signatures with
      | ok b =>
        cases b with
        | true =>
          rw [processEvent] at herr
          simp [hd, ha, hv] at herr
        | false => simp [processEvent, hd, ha, hv, remove_add_kel]
      | error e3 =>
        have hne : e3 ≠ .eventDuplicate := fun hdup =>
          keyConfigVerify_no_dup env ns.current (env.ser sev.eventMessage)
            sev.signatures henv (hdup ▸ hv)
        simp [processEvent, hd, ha, hv, hne, remove_add_kel]

/-- Claim C1 (counterexample): re-processing an already-accepted inception
returns `EventDuplicate`, yet the duplicity log remains empty — the
duplicity-log append that the claim asserts as the surviving side effect
never happens. -/
theorem c1_counterexample :
    (processEvent cEnv cDb1 cIcp).result = .error .eventDuplicate ∧
    (processEvent cEnv cDb1 cIcp).db.duplicious cPref = [] ∧
    cDb1.duplicious cPref = [] := ⟨rfl, rfl, rfl⟩

/-- Claim C1 (witness): the amended atomicity theorem applied to the
concrete duplicate scenario. -/
theorem c1_witness :
    (processEvent cEnv cDb1 cIcp).result = .error .eventDuplicate ∧
    (processEvent cEnv cDb1 cIcp).db = cDb1 :=
  ⟨rfl, c1_amended cEnv cDb1 cIcp (fun _ _ _ h => Except.noConfusion h)
    .eventDuplicate rfl⟩

/-- Claim C2: whenever `process_event` reaches signature verification (the
precheck and the state application succeeded), the event has already been
appended to the finalized KEL, and the verification runs against the current
key configuration of the state obtained by applying the event, over the
event's canonical bytes and its signatures. -/
theorem c2_apply_then_verify (env : Env) (db : Db) (sev : SignedEventMessage)
    (ns : IdentifierState)
    (hd : delegCheck env db sev = .ok ())
    (ha : applyToState env db sev.eventMessage = .ok ns) :
    (processEvent env db sev).trace.take 2 =
      [DbOp.addKel sev sev.eventMessage.event.pref,
       DbOp.verifyWith ns.current (env.ser sev.eventMessage) sev.signatures] := by
  cases hv : KeyConfig.verify env ns.current (env.ser sev.eventMessage)
      sev.signatures with
  | ok b => cases b <;> simp [processEvent, hd, ha, hv]
  | error e3 =>
    by_cases he : e3 = .eventDuplicate <;> simp [processEvent, hd, ha, hv, he]

/-- Claim C2 (witness): the trace shape on a concrete inception over the
empty database. -/
theorem c2_witness :
    delegCheck cEnv emptyDb cIcp = .ok () ∧
    applyToState cEnv emptyDb cIcp.eventMessage = .ok cSt1 ∧
    (processEvent cEnv emptyDb cIcp).trace.take 2 =
      [DbOp.addKel cIcp cIcp.eventMessage.event.pref,
       DbOp.verifyWith cSt1.current (cEnv.ser cIcp.eventMessage) cIcp.signatures] :=
  ⟨rfl, rfl, c2_apply_then_verify cEnv emptyDb cIcp cSt1 rfl rfl⟩

/-- Claim C9: an inception builder with the unset default prefix and exactly
one current key builds an event whose prefix is the basic prefix of that
key and whose sequence number is zero, whatever was set with `with_sn`. -/
theorem c9_builder_basic_inception (env : Env) (b : EventMsgBuilder)
    (k : BasicPref) (n : Nat)
    (hT : b.eventType = .inception)
    (hP : b.pref = IdentifierPref.default)
    (hK : b.keys = [k]) :
    ∃ m, EventMsgBuilder.build env (b.withSn n) = .ok m ∧
      m.event.pref = .basic k ∧ m.event.sn = 0 := by
  cases b with
  | mk eventType pref sn keyThreshold keys nextKeys prevEvent data delegator fmt derivation =>
    subst hT
    subst hP
    subst hK
    exact ⟨_, rfl, rfl, rfl⟩

/-- Claim C9 (witness): the builder theorem on a concrete configuration. -/
theorem c9_witness :
    cBuilder.eventType = .inception ∧
    cBuilder.pref = IdentifierPref.default ∧
    cBuilder.keys = [cKey] ∧
    ∃ m, EventMsgBuilder.build cEnv (cBuilder.withSn 42) = .ok m ∧
      m.event.pref = .basic cKey ∧ m.event.sn = 0 :=
  ⟨rfl, rfl, rfl, c9_builder_basic_inception cEnv cBuilder cKey 42 rfl rfl rfl⟩

/-- The seal-lookup loop returns the last inception-or-rotation seen, else
the accumulator. -/
theorem lastEstLoop_ok (env : Env) :
    ∀ (evs : List SignedEventMessage) (st : IdentifierState)
      (acc r : Option SignedEventMessage),
    lastEstLoop env st acc evs = .ok r →
    r = (match findLastIcpRot evs with | some x => some x | none => acc) := by
  intro evs
  induction evs with
  | nil =>
    intro st acc r h
    rw [lastEstLoop, Except.ok.injEq] at h
    exact h.symm
  | cons e rest ih =>
    intro st acc r h
    rw [lastEstLoop] at h
    split at h
    next err happ => exact Except.noConfusion h
    next s happ =>
      have hr := ih s _ r h
      rw [findLastIcpRot]
      cases hf : findLastIcpRot rest with
      | some x =>
        rw [hf] at hr
        simpa using hr
      | none =>
        rw [hf] at hr
        simp only [] at hr ⊢
        cases hED : e.eventMessage.event.eventData with
        | icp a => rw [hED] at hr; simpa using hr
        | rot a => rw [hED] at hr; simpa using hr
        | ixn a => rw [hED] at hr; simpa using hr
        | dip a => rw [hED] at hr; simpa using hr
        | drt a => rw [hED] at hr; simpa using hr
        | rct a => rw [hED] at hr; simpa using hr

/-- Claim C6 (amended): when `get_last_establishment_event_seal` succeeds it
returns the seal (prefix, sn, Blake3-256 digest of the serialized signed
event) of the most recent event in the stored log whose payload is an
inception or a rotation; delegated establishment events (`dip`, `drt`) do
not update the tracker. -/
theorem c6_amended (env : Env) (db : Db) (id : IdentifierPref)
    (evs : List SignedEventMessage) (r : Option EventSeal)
    (hk : getKel db id = some evs)
    (hr : getLastEstablishmentEventSeal env db id = .ok r) :
    r = (findLastIcpRot evs).map (mkEstSeal env) := by
  have hr' : (match lastEstLoop env IdentifierState.default none evs with
      | Except.error e => (Except.error e : Except Error (Option EventSeal))
      | Except.ok lastEst => Except.ok (lastEst.map (mkEstSeal env))) =
      Except.ok r := by
    rw [← hr, getLastEstablishmentEventSeal, hk]
  split at hr'
  next e hl => exact Except.noConfusion hr'
  next lastEst hl =>
    rw [Except.ok.injEq] at hr'
    have hacc := lastEstLoop_ok env evs IdentifierState.default none lastEst hl
    subst hr'
    rw [hacc]
    cases findLastIcpRot evs with
    | none => rfl
    | some x => rfl

/-- Claim C6 (counterexample): a KEL whose only event is a delegated
inception — an establishment event — yields no seal at all. -/
theorem c6_counterexample :
    cDb6.kel cChildPref = [cDip] ∧
    isEstablishmentData cDip.eventMessage.event.eventData = true ∧
    getLastEstablishmentEventSeal cEnv cDb6 cChildPref = .ok none :=
  ⟨rfl, rfl, rfl⟩

/-- Claim C6 (witness): the amended theorem on a one-inception KEL. -/
theorem c6_witness :
    getKel cDb1 cPref = some [cIcp] ∧
    getLastEstablishmentEventSeal cEnv cDb1 cPref = .ok (some (mkEstSeal cEnv cIcp)) ∧
    (some (mkEstSeal cEnv cIcp) : Option EventSeal) =
      (findLastIcpRot [cIcp]).map (mkEstSeal cEnv) :=
  ⟨rfl, rfl,
    c6_amended cEnv cDb1 cPref [cIcp] (some (mkEstSeal cEnv cIcp)) rfl rfl⟩

/-- Claim C7 (amended): for a structurally correct witness receipt whose
receipted event is in the KEL, each couplet is verified against the
serialized signed receipted event; the receipt is persisted exactly when no
couplet's verification returns an error (a couplet returning a false boolean
does not prevent persistence), and otherwise the last error among the
couplets is returned with the database unchanged. -/
theorem c7_amended (env : Env) (db : Db) (rct : SignedNontransferableReceipt)
    (d : SelfAddressingPref) (tsev : SignedEventMessage)
    (h1 : rct.body.event.eventData = .rct d)
    (h2 : getEventAtSn db rct.body.event.pref rct.body.event.sn = some tsev) :
    (wrcErrors env rct tsev = [] →
      (processWitnessReceipt env db rct).2.receiptsNT rct.body.event.pref =
        db.receiptsNT rct.body.event.pref ++ [rct]) ∧
    (∀ e, (wrcErrors env rct tsev).getLast? = some e →
      (processWitnessReceipt env db rct).1 = .error e ∧
      (processWitnessReceipt env db rct).2 = db) := by
  constructor
  · intro herr
    simp [processWitnessReceipt, h1, h2, herr, addReceiptNT]
  · intro e hget
    simp [processWitnessReceipt, h1, h2, hget]

/-- Claim C7 (counterexample): with two couplets failing with distinct
errors, the returned error is the last one, not the first. -/
theorem c7_counterexample :
    wrcErrors cEnv7 cRct cIcp = [.semanticError "e1", .semanticError "e2"] ∧
    (processWitnessReceipt cEnv7 cDb1 cRct).1 = .error (.semanticError "e2") ∧
    Error.semanticError "e2" ≠ Error.semanticError "e1" :=
  ⟨rfl, rfl, by decide⟩

/-- Claim C4: a delegated event (`dip` or `drt`) with delegator `dlg` and a
source seal naming sequence number `sn` (the last entry of the last
source-seal attachment) is accepted only if the delegator's KEL at `sn`
holds an event whose data field contains an event seal binding the
delegated event's canonical bytes; if the delegator's event at `sn` is
absent the call fails with `EventOutOfOrder`, and if it is present without
a matching seal the call fails with a `SemanticError`. -/
theorem c4_delegation_binding (env : Env) (db : Db) (sev : SignedEventMessage)
    (dlg : IdentifierPref) (sn : Nat) (dig : SelfAddressingPref)
    (hD : delegatorOf env db sev = some dlg)
    (hs : findSourceSeal sev = .ok (sn, dig)) :
    (∀ r, (processEvent env db sev).result = .ok r →
      sealMatch env db dlg sn (env.ser sev.eventMessage)) ∧
    (getEventAtSn db dlg sn = none →
      (processEvent env db sev).result = .error .eventOutOfOrder) ∧
    (∀ tsev, getEventAtSn db dlg sn = some tsev →
      sealMatchB env (sealData tsev.eventMessage.event.eventData)
        (env.ser sev.eventMessage) = false →
      ∃ m, (processEvent env db sev).result = .error (.semanticError m)) := by
  have hdc : delegCheck env db sev =
      validateSeal env db { pref := dlg, sn := sn, eventDigest := dig }
        (env.ser sev.eventMessage) := by
    cases hED : sev.eventMessage.event.eventData with
    | dip dd =>
      have hD' : dd.delegator = dlg := by
        rw [delegatorOf, hED] at hD
        simpa using hD
      simp [delegCheck, hED, hs, hD', exceptBind_ok]
    | drt dd =>
      rw [delegatorOf, hED] at hD
      cases hcs : computeState env db sev.eventMessage.event.pref with
      | error e0 => rw [hcs] at hD; simp at hD
      | ok o =>
        cases o with
        | none => rw [hcs] at hD; simp at hD
        | some st =>
          rw [hcs] at hD
          simp only [] at hD
          simp [delegCheck, hED, hcs, hD, hs, exceptBind_ok]
    | icp a => rw [delegatorOf, hED] at hD; simp at hD
    | rot a => rw [delegatorOf, hED] at hD; simp at hD
    | ixn a => rw [delegatorOf, hED] at hD; simp at hD
    | rct a => rw [delegatorOf, hED] at hD; simp at hD
  refine ⟨?_, ?_, ?_⟩
  · intro r hr
    have hds : delegCheck env db sev = .ok () := by
      cases hd : delegCheck env db sev with
      | ok u => cases u; rfl
      | error e1 =>
        rw [processEvent] at hr
        simp [hd] at hr
    rw [hdc] at hds
    rw [validateSeal] at hds
    split at hds
    next tsev hget =>
      split at hds
      next data hsd =>
        split at hds
        next hany =>
          refine ⟨tsev, hget, ?_⟩
          rw [hsd]
          simpa [sealMatchB] using hany
        next hany => exact Except.noConfusion hds
      next hsd => exact Except.noConfusion hds
    next hget => exact Except.noConfusion hds
  · intro hnone
    have hdel : delegCheck env db sev = .error .eventOutOfOrder := by
      rw [hdc]
      simp [validateSeal, hnone]
    simp [processEvent, hdel]
  · intro tsev hget hmatch
    cases hsd : sealData tsev.eventMessage.event.eventData with
    | none =>
      have hdel : delegCheck env db sev =
          .error (.semanticError "Improper event type") := by
        rw [hdc]
        simp [validateSeal, hget, hsd]
      exact ⟨"Improper event type", by simp [processEvent, hdel]⟩
    | some data =>
      have hanyf : data.any (fun s =>
          match s with
          | .event es => verifyBinding env es.eventDigest (env.ser sev.eventMessage)
          | _ => false) = false := by
        rw [hsd] at hmatch
        simpa [sealMatchB] using hmatch
      have hdel : delegCheck env db sev =
          .error (.semanticError "Data field does not contain delegating event seal") := by
        rw [hdc]
        simp [validateSeal, hget, hsd, hanyf]
      exact ⟨"Data field does not contain delegating event seal",
        by simp [processEvent, hdel]⟩

/-- Claim C4 (witness): a concrete delegated inception whose delegator has
no event at the named sequence number is rejected as out of order. -/
theorem c4_witness :
    delegatorOf cEnv emptyDb cDip = some cBobPref ∧
    findSourceSeal cDip = .ok (1, { derivation := .blake3_256, digest := [4] }) ∧
    getEventAtSn emptyDb cBobPref 1 = none ∧
    (processEvent cEnv emptyDb cDip).result = .error .eventOutOfOrder :=
  ⟨rfl, rfl, rfl,
    (c4_delegation_binding cEnv emptyDb cDip cBobPref 1
      { derivation := .blake3_256, digest := [4] } rfl rfl).2.1 rfl⟩

/-- Claim C7 (witness): the amended theorem on the two-error receipt. -/
theorem c7_witness :
    (wrcErrors cEnv7 cRct cIcp).getLast? = some (.semanticError "e2") ∧
    (processWitnessReceipt cEnv7 cDb1 cRct).1 = .error (.semanticError "e2") ∧
    (processWitnessReceipt cEnv7 cDb1 cRct).2 = cDb1 :=
  ⟨rfl,
    ((c7_amended cEnv7 cDb1 cRct { derivation := .blake3_256, digest := [5] }
      cIcp rfl rfl).2 (.semanticError "e2") rfl).1,
    ((c7_amended cEnv7 cDb1 cRct { derivation := .blake3_256, digest := [5] }
      cIcp rfl rfl).2 (.semanticError "e2") rfl).2⟩

end Keri
